import Mathlib

/-!
Verification of the kraken-api-client library against its specification.

The development shallowly embeds the relevant Rust source:
* `src/auth/signature.rs` and `src/futures/auth.rs` (request signing),
* `src/auth/nonce.rs` (monotone nonce source),
* `src/error.rs` and `src/spot/rest/client.rs` (envelope parsing),
* `src/rate_limit/ttl_cache.rs`, `src/rate_limit/client.rs` and
  `src/rate_limit/trading.rs` (rate limiting),
* `src/types/last_and_data.rs` (pagination envelope codec).

Machine integers are modelled as `Nat`/`Int`; `f64` time arithmetic is
modelled as exact rational arithmetic over `ℚ`, with the `as i64` cast
modelled as truncation toward zero.  Byte strings are `List Nat` with each
element a byte value.
-/

set_option maxRecDepth 10000

/-! ## Byte-level primitives: UTF-8, base64, SHA-256, SHA-512, HMAC -/

/-- UTF-8 encoding of a single character (code point) as a list of bytes. -/
def utf8EncodeCharBytes (c : Char) : List Nat :=
  let n := c.toNat
  if n < 128 then [n]
  else if n < 2048 then [192 + n / 64, 128 + n % 64]
  else if n < 65536 then [224 + n / 4096, 128 + n / 64 % 64, 128 + n % 64]
  else [240 + n / 262144, 128 + n / 4096 % 64, 128 + n / 64 % 64, 128 + n % 64]

/-- The UTF-8 byte sequence of a string, as produced by `str::as_bytes` in Rust. -/
def utf8Bytes (s : String) : List Nat :=
  (s.data.map utf8EncodeCharBytes).flatten

/-- The standard base64 alphabet. -/
def base64Chars : List Char :=
  "ABCDEFGHIJKLMNOPQRSTUVWXYZabcdefghijklmnopqrstuvwxyz0123456789+/".data

/-- The character for a sextet value. -/
def sextetChar (n : Nat) : Char :=
  base64Chars.getD n 'A'

/-- The sextet value of an alphabet character, `none` for non-alphabet characters. -/
def sextetVal (c : Char) : Option Nat :=
  base64Chars.findIdx? (fun d => d == c)

/-- Standard base64 encoding with padding, as produced by the `base64` crate
`STANDARD` engine. -/
def base64Encode : List Nat → String
  | [] => ""
  | [b1] =>
    String.mk [sextetChar (b1 / 4), sextetChar (b1 % 4 * 16), '=', '=']
  | [b1, b2] =>
    String.mk [sextetChar (b1 / 4), sextetChar (b1 % 4 * 16 + b2 / 16),
      sextetChar (b2 % 16 * 4), '=']
  | b1 :: b2 :: b3 :: rest =>
    String.mk [sextetChar (b1 / 4), sextetChar (b1 % 4 * 16 + b2 / 16),
      sextetChar (b2 % 16 * 4 + b3 / 64), sextetChar (b3 % 64)]
      ++ base64Encode rest

/-- Decode a base64 character stream in four-character chunks.  Mirrors the
`base64` crate `STANDARD` engine: canonical padding is required and
non-zero trailing bits are rejected. -/
def base64DecodeChunks : List Char → Option (List Nat)
  | [] => some []
  | c1 :: c2 :: c3 :: c4 :: rest =>
    match sextetVal c1, sextetVal c2 with
    | some v1, some v2 =>
      if c3 = '=' then
        if c4 = '=' ∧ rest = [] ∧ v2 % 16 = 0 then some [v1 * 4 + v2 / 16] else none
      else
        match sextetVal c3 with
        | some v3 =>
          if c4 = '=' then
            if rest = [] ∧ v3 % 4 = 0 then
              some [v1 * 4 + v2 / 16, v2 % 16 * 16 + v3 / 4]
            else none
          else
            match sextetVal c4 with
            | some v4 =>
              (base64DecodeChunks rest).map
                (fun tail => (v1 * 4 + v2 / 16) :: (v2 % 16 * 16 + v3 / 4) ::
                  (v3 % 4 * 64 + v4) :: tail)
            | none => none
        | none => none
    | _, _ => none
  | _ => none

/-- Strict standard base64 decoding with required canonical padding. -/
def base64Decode (s : String) : Option (List Nat) :=
  base64DecodeChunks s.data

/-- Right rotation of a 32-bit word. -/
def rotr32 (x n : Nat) : Nat :=
  ((x >>> n) ||| (x <<< (32 - n))) % 2 ^ 32

/-- Right rotation of a 64-bit word. -/
def rotr64 (x n : Nat) : Nat :=
  ((x >>> n) ||| (x <<< (64 - n))) % 2 ^ 64

/-- Big-endian bytes of a number, fixed width. -/
def natToBeBytes (width n : Nat) : List Nat :=
  (List.range width).map (fun i => n / 256 ^ (width - 1 - i) % 256)

/-- Group a byte list into big-endian words of `wbytes` bytes each. -/
def beWords (wbytes : Nat) (l : List Nat) : List Nat :=
  (List.range (l.length / wbytes)).map
    (fun i => ((l.drop (wbytes * i)).take wbytes).foldl (fun acc b => acc * 256 + b) 0)

/-- SHA-256 round constants. -/
def sha256K : List Nat :=
  [1116352408, 1899447441, 3049323471, 3921009573, 961987163, 1508970993,
   2453635748, 2870763221, 3624381080, 310598401, 607225278, 1426881987,
   1925078388, 2162078206, 2614888103, 3248222580, 3835390401, 4022224774,
   264347078, 604807628, 770255983, 1249150122, 1555081692, 1996064986,
   2554220882, 2821834349, 2952996808, 3210313671, 3336571891, 3584528711,
   113926993, 338241895, 666307205, 773529912, 1294757372, 1396182291,
   1695183700, 1986661051, 2177026350, 2456956037, 2730485921, 2820302411,
   3259730800, 3345764771, 3516065817, 3600352804, 4094571909, 275423344,
   430227734, 506948616, 659060556, 883997877, 958139571, 1322822218,
   1537002063, 1747873779, 1955562222, 2024104815, 2227730452, 2361852424,
   2428436474, 2756734187, 3204031479, 3329325298]

/-- SHA-256 initial hash value. -/
def sha256H0 : List Nat :=
  [1779033703, 3144134277, 1013904242, 2773480762, 1359893119, 2600822924,
   528734635, 1541459225]

/-- SHA-512 round constants. -/
def sha512K : List Nat :=
  [4794697086780616226, 8158064640168781261, 13096744586834688815, 16840607885511220156,
   4131703408338449720, 6480981068601479193, 10538285296894168987, 12329834152419229976,
   15566598209576043074, 1334009975649890238, 2608012711638119052, 6128411473006802146,
   8268148722764581231, 9286055187155687089, 11230858885718282805, 13951009754708518548,
   16472876342353939154, 17275323862435702243, 1135362057144423861, 2597628984639134821,
   3308224258029322869, 5365058923640841347, 6679025012923562964, 8573033837759648693,
   10970295158949994411, 12119686244451234320, 12683024718118986047, 13788192230050041572,
   14330467153632333762, 15395433587784984357, 489312712824947311, 1452737877330783856,
   2861767655752347644, 3322285676063803686, 5560940570517711597, 5996557281743188959,
   7280758554555802590, 8532644243296465576, 9350256976987008742, 10552545826968843579,
   11727347734174303076, 12113106623233404929, 14000437183269869457, 14369950271660146224,
   15101387698204529176, 15463397548674623760, 17586052441742319658, 1182934255886127544,
   1847814050463011016, 2177327727835720531, 2830643537854262169, 3796741975233480872,
   4115178125766777443, 5681478168544905931, 6601373596472566643, 7507060721942968483,
   8399075790359081724, 8693463985226723168, 9568029438360202098, 10144078919501101548,
   10430055236837252648, 11840083180663258601, 13761210420658862357, 14299343276471374635,
   14566680578165727644, 15097957966210449927, 16922976911328602910, 17689382322260857208,
   500013540394364858, 748580250866718886, 1242879168328830382, 1977374033974150939,
   2944078676154940804, 3659926193048069267, 4368137639120453308, 4836135668995329356,
   5532061633213252278, 6448918945643986474, 6902733635092675308, 7801388544844847127]

/-- SHA-512 initial hash value. -/
def sha512H0 : List Nat :=
  [7640891576956012808, 13503953896175478587, 4354685564936845355, 11912009170470909681,
   5840696475078001361, 11170449401992604703, 2270897969802886507, 6620516959819538809]

/-- SHA-256 message padding to a multiple of 64 bytes. -/
def sha256Pad (msg : List Nat) : List Nat :=
  msg ++ 128 :: List.replicate ((119 - msg.length % 64) % 64) 0
    ++ natToBeBytes 8 (msg.length * 8 % 2 ^ 64)

/-- SHA-256 message schedule: extend 16 words to 64 words. -/
def sha256Schedule (w16 : List Nat) : List Nat :=
  (List.range 48).foldl
    (fun w _ =>
      let i := w.length
      let x15 := w.getD (i - 15) 0
      let x2 := w.getD (i - 2) 0
      let s0 := rotr32 x15 7 ^^^ rotr32 x15 18 ^^^ (x15 >>> 3)
      let s1 := rotr32 x2 17 ^^^ rotr32 x2 19 ^^^ (x2 >>> 10)
      w ++ [(w.getD (i - 16) 0 + s0 + w.getD (i - 7) 0 + s1) % 2 ^ 32])
    w16

/-- One SHA-256 compression step over a 64-byte block. -/
def sha256Compress (h0 : List Nat) (block : List Nat) : List Nat :=
  let ws := sha256Schedule (beWords 4 block)
  let final := (ws.zip sha256K).foldl
    (fun st wk =>
      match st with
      | [a, b, c, d, e, f, g, hh] =>
        let s1 := rotr32 e 6 ^^^ rotr32 e 11 ^^^ rotr32 e 25
        let ch := (e &&& f) ^^^ ((e ^^^ (2 ^ 32 - 1)) &&& g)
        let t1 := (hh + s1 + ch + wk.2 + wk.1) % 2 ^ 32
        let s0 := rotr32 a 2 ^^^ rotr32 a 13 ^^^ rotr32 a 22
        let maj := (a &&& b) ^^^ (a &&& c) ^^^ (b &&& c)
        let t2 := (s0 + maj) % 2 ^ 32
        [(t1 + t2) % 2 ^ 32, a, b, c, (d + t1) % 2 ^ 32, e, f, g]
      | other => other)
    h0
  (h0.zip final).map (fun p => (p.1 + p.2) % 2 ^ 32)

/-- SHA-256 of a byte list, result as 32 bytes. -/
def sha256 (msg : List Nat) : List Nat :=
  let padded := sha256Pad msg
  let blocks := (List.range (padded.length / 64)).map
    (fun i => (padded.drop (64 * i)).take 64)
  ((blocks.foldl sha256Compress sha256H0).map (natToBeBytes 4)).flatten

/-- SHA-512 message padding to a multiple of 128 bytes. -/
def sha512Pad (msg : List Nat) : List Nat :=
  msg ++ 128 :: List.replicate ((239 - msg.length % 128) % 128) 0
    ++ natToBeBytes 16 (msg.length * 8 % 2 ^ 128)

/-- SHA-512 message schedule: extend 16 words to 80 words. -/
def sha512Schedule (w16 : List Nat) : List Nat :=
  (List.range 64).foldl
    (fun w _ =>
      let i := w.length
      let x15 := w.getD (i - 15) 0
      let x2 := w.getD (i - 2) 0
      let s0 := rotr64 x15 1 ^^^ rotr64 x15 8 ^^^ (x15 >>> 7)
      let s1 := rotr64 x2 19 ^^^ rotr64 x2 61 ^^^ (x2 >>> 6)
      w ++ [(w.getD (i - 16) 0 + s0 + w.getD (i - 7) 0 + s1) % 2 ^ 64])
    w16

/-- One SHA-512 compression step over a 128-byte block. -/
def sha512Compress (h0 : List Nat) (block : List Nat) : List Nat :=
  let ws := sha512Schedule (beWords 8 block)
  let final := (ws.zip sha512K).foldl
    (fun st wk =>
      match st with
      | [a, b, c, d, e, f, g, hh] =>
        let s1 := rotr64 e 14 ^^^ rotr64 e 18 ^^^ rotr64 e 41
        let ch := (e &&& f) ^^^ ((e ^^^ (2 ^ 64 - 1)) &&& g)
        let t1 := (hh + s1 + ch + wk.2 + wk.1) % 2 ^ 64
        let s0 := rotr64 a 28 ^^^ rotr64 a 34 ^^^ rotr64 a 39
        let maj := (a &&& b) ^^^ (a &&& c) ^^^ (b &&& c)
        let t2 := (s0 + maj) % 2 ^ 64
        [(t1 + t2) % 2 ^ 64, a, b, c, (d + t1) % 2 ^ 64, e, f, g]
      | other => other)
    h0
  (h0.zip final).map (fun p => (p.1 + p.2) % 2 ^ 64)

/-- SHA-512 of a byte list, result as 64 bytes. -/
def sha512 (msg : List Nat) : List Nat :=
  let padded := sha512Pad msg
  let blocks := (List.range (padded.length / 128)).map
    (fun i => (padded.drop (128 * i)).take 128)
  ((blocks.foldl sha512Compress sha512H0).map (natToBeBytes 8)).flatten

/-- HMAC-SHA-512 with an arbitrary-length key, per RFC 2104 and the `hmac`
crate (`HmacSha512::new_from_slice` accepts any key length). -/
def hmacSha512 (key msg : List Nat) : List Nat :=
  let k0 := if key.length > 128 then sha512 key else key
  let kp := k0 ++ List.replicate (128 - k0.length) 0
  sha512 ((kp.map (fun b => b ^^^ 92)) ++ sha512 ((kp.map (fun b => b ^^^ 54)) ++ msg))

/-! ## Credentials, errors and the two signing functions -/

/-- `Credentials` from `src/auth/credentials.rs`: an API key and the base64
API secret (`expose_secret` reveals the stored secret string). -/
structure Credentials where
  api_key : String
  api_secret : String
deriving DecidableEq

/-- `ApiError` from `src/error.rs`. -/
structure ApiError where
  code : String
  message : String
deriving DecidableEq

/-- The variants of `KrakenError` from `src/error.rs` that the claims touch. -/
inductive KrakenError where
  | Auth (msg : String)
  | Api (err : ApiError)
  | RateLimitExceeded (retry_after_ms : Option Nat)
  | InvalidResponse (msg : String)
deriving DecidableEq

/-- `sign_request` from `src/auth/signature.rs` lines 48-75: decode the
secret from base64 (`Auth` error on failure), hash `nonce_str ++ post_data`
with SHA-256, feed `url_path` followed by that hash to HMAC-SHA-512 keyed
with the decoded secret, and base64-encode the tag.  The second `Auth`
branch of the source (`Invalid HMAC key`) is unreachable because
HMAC-SHA-512 accepts keys of any length. -/
def sign_request (credentials : Credentials) (url_path : String) (nonce : Nat)
    (post_data : String) : Except KrakenError String :=
  match base64Decode credentials.api_secret with
  | none => .error (.Auth "API secret must be valid base64.")
  | some secret_decoded =>
    let nonce_str := toString nonce
    let sha256_hash := sha256 (utf8Bytes nonce_str ++ utf8Bytes post_data)
    let hmac_result := hmacSha512 secret_decoded (utf8Bytes url_path ++ sha256_hash)
    .ok (base64Encode hmac_result)

/-- `sign_futures_request` from `src/futures/auth.rs` lines 65-91: decode the
secret, concatenate `post_data ++ nonce_str ++ endpoint_path` as one string,
SHA-256 that message, HMAC-SHA-512 the hash with the decoded secret, and
base64-encode the tag. -/
def sign_futures_request (credentials : Credentials) (endpoint_path : String)
    (nonce : Nat) (post_data : String) : Except KrakenError String :=
  match base64Decode credentials.api_secret with
  | none => .error (.Auth "API secret must be valid base64.")
  | some secret_decoded =>
    let nonce_str := toString nonce
    let message := post_data ++ nonce_str ++ endpoint_path
    let sha256_hash := sha256 (utf8Bytes message)
    .ok (base64Encode (hmacSha512 secret_decoded sha256_hash))

/-- Spot signature formula as the specification words it (§4.C / §6):
`Base64(HMAC-SHA-512(key = decoded secret, data = path ‖ SHA-256(nonce_ascii ‖ body)))`. -/
def specSpotSignature (secret_key : List Nat) (path : String) (nonce : Nat)
    (body : String) : String :=
  let h := sha256 (utf8Bytes (toString nonce) ++ utf8Bytes body)
  let m := hmacSha512 secret_key (utf8Bytes path ++ h)
  base64Encode m

/-- Futures signature formula as the specification words it (§4.C / §6):
`Base64(HMAC-SHA-512(key = decoded secret, data = SHA-256(body ‖ nonce_ascii ‖ path)))`. -/
def specFuturesSignature (secret_key : List Nat) (path : String) (nonce : Nat)
    (body : String) : String :=
  let h := sha256 (utf8Bytes body ++ utf8Bytes (toString nonce) ++ utf8Bytes path)
  base64Encode (hmacSha512 secret_key h)

theorem utf8Bytes_append (s t : String) :
    utf8Bytes (s ++ t) = utf8Bytes s ++ utf8Bytes t := by
  simp [utf8Bytes, String.data_append]

/-- C1: `sign_request` fails with `Auth` exactly on invalid-base64 secrets and
otherwise returns the spec's Spot signature formula. -/
theorem sign_request_matches_spec (c : Credentials) (path : String) (nonce : Nat)
    (body : String) :
    (base64Decode c.api_secret = none →
      ∃ m, sign_request c path nonce body = .error (.Auth m)) ∧
    (∀ key, base64Decode c.api_secret = some key →
      sign_request c path nonce body = .ok (specSpotSignature key path nonce body)) := by
  constructor
  · intro h
    exact ⟨"API secret must be valid base64.", by simp [sign_request, h]⟩
  · intro key h
    simp [sign_request, h, specSpotSignature]

/-- C1 witness: concrete invalid and valid secrets exercising both branches. -/
theorem sign_request_matches_spec_witness :
    (∃ m, sign_request ⟨"key", "!"⟩ "/0/private/Balance" 1 "nonce=1" =
      .error (.Auth m)) ∧
    sign_request ⟨"key", "AAAA"⟩ "/0/private/Balance" 1 "nonce=1" =
      .ok (specSpotSignature [0, 0, 0] "/0/private/Balance" 1 "nonce=1") :=
  ⟨(sign_request_matches_spec ⟨"key", "!"⟩ "/0/private/Balance" 1 "nonce=1").1 (by decide),
   (sign_request_matches_spec ⟨"key", "AAAA"⟩ "/0/private/Balance" 1 "nonce=1").2
     [0, 0, 0] (by decide)⟩

/-- C2: on a valid-base64 secret, `sign_futures_request` returns the spec's
Futures signature formula: the nonce and path are hashed inside SHA-256 and
only the 32-byte hash is fed to HMAC. -/
theorem sign_futures_request_matches_spec (c : Credentials) (path : String)
    (nonce : Nat) (body : String) (key : List Nat)
    (h : base64Decode c.api_secret = some key) :
    sign_futures_request c path nonce body =
      .ok (specFuturesSignature key path nonce body) := by
  simp [sign_futures_request, h, specFuturesSignature, ← utf8Bytes_append]

/-- C2 witness: a concrete valid-base64 secret. -/
theorem sign_futures_request_matches_spec_witness :
    sign_futures_request ⟨"key", "AAAA"⟩ "/api/v3/sendorder" 1 "symbol=PI_XBTUSD" =
      .ok (specFuturesSignature [0, 0, 0] "/api/v3/sendorder" 1 "symbol=PI_XBTUSD") :=
  sign_futures_request_matches_spec ⟨"key", "AAAA"⟩ "/api/v3/sendorder" 1
    "symbol=PI_XBTUSD" [0, 0, 0] (by decide)

/-! ## Response envelope parsing (`src/error.rs`, `src/spot/rest/client.rs`) -/

/-- Split a character list at the first occurrence of `sep`; `none` when the
separator does not occur.  Models `str::splitn(2, sep)` producing two parts. -/
def splitOnceChar (sep : Char) : List Char → Option (List Char × List Char)
  | [] => none
  | c :: rest =>
    if c = sep then some ([], rest)
    else (splitOnceChar sep rest).map (fun p => (c :: p.1, p.2))

/-- Whether `pat` is an initial segment of `l`. -/
def listStartsWith : List Char → List Char → Bool
  | [], _ => true
  | _ :: _, [] => false
  | p :: ps, c :: cs => p = c && listStartsWith ps cs

/-- Whether `pat` occurs contiguously inside the second list. -/
def containsSub (pat : List Char) : List Char → Bool
  | [] => listStartsWith pat []
  | c :: rest => listStartsWith pat (c :: rest) || containsSub pat rest

/-- Substring test, modelling `str::contains` on string patterns. -/
def strContains (s pat : String) : Bool :=
  containsSub pat.data s.data

/-- `ApiError::from_error_array` from `src/error.rs` lines 96-106: take the
first error string and split it on the first colon; without a colon the code
is `"Unknown"`. -/
def ApiError.from_error_array (errors : List String) : Option ApiError :=
  errors.head?.map (fun e =>
    match splitOnceChar ':' e.data with
    | some p => ⟨String.mk p.1, String.mk p.2⟩
    | none => ⟨"Unknown", e⟩)

/-- `ApiError::full_code` from `src/error.rs`. -/
def ApiError.full_code (e : ApiError) : String :=
  e.code ++ ":" ++ e.message

/-- `ApiError::is_rate_limit` from `src/error.rs` lines 114-117: a substring
check on the message, not an exact match of the full code. -/
def ApiError.is_rate_limit (e : ApiError) : Bool :=
  (decide (e.code = "EAPI") && strContains e.message "Rate limit")
    || (decide (e.code = "EOrder") && strContains e.message "Rate limit")

/-- `SpotRestClient::parse_response` from `src/spot/rest/client.rs` lines
176-208, after the body has been decoded into the Spot envelope
`{error, result}`.  `status_is_success`/`status_text` model
`reqwest::StatusCode`; `body` is the raw body text used in error messages. -/
def parse_response {T : Type} (status_is_success : Bool) (status_text : String)
    (error : List String) (result : Option T) (body : String) :
    Except KrakenError T :=
  let resultCase : Except KrakenError T :=
    match result with
    | some r => .ok r
    | none =>
      if status_is_success then
        .error (.InvalidResponse "Response missing 'result' field")
      else
        .error (.InvalidResponse ("HTTP " ++ status_text ++ ": " ++ body))
  match error with
  | [] => resultCase
  | e :: rest =>
    match ApiError.from_error_array (e :: rest) with
    | some api_error =>
      if api_error.is_rate_limit then .error (.RateLimitExceeded none)
      else .error (.Api api_error)
    | none => resultCase

/-- Spot envelope handling as amended: the rate-limit classification keys on
the code part being `EAPI` or `EOrder` together with the message containing
the substring `Rate limit`, not on an exact full-code match. -/
def specParseResponse {T : Type} (status_is_success : Bool) (status_text : String)
    (error : List String) (result : Option T) (body : String) :
    Except KrakenError T :=
  match error.head? with
  | some first =>
    let ce : ApiError :=
      match splitOnceChar ':' first.data with
      | some p => ⟨String.mk p.1, String.mk p.2⟩
      | none => ⟨"Unknown", first⟩
    if (ce.code = "EAPI" ∨ ce.code = "EOrder") ∧ strContains ce.message "Rate limit" = true
    then .error (.RateLimitExceeded none)
    else .error (.Api ce)
  | none =>
    match result with
    | some r => .ok r
    | none =>
      if status_is_success then
        .error (.InvalidResponse "Response missing 'result' field")
      else
        .error (.InvalidResponse ("HTTP " ++ status_text ++ ": " ++ body))

theorem is_rate_limit_iff (e : ApiError) :
    e.is_rate_limit = true ↔
      (e.code = "EAPI" ∨ e.code = "EOrder") ∧ strContains e.message "Rate limit" = true := by
  simp [ApiError.is_rate_limit, Bool.or_eq_true, Bool.and_eq_true, decide_eq_true_eq,
    or_and_right]

/-- C4 counterexample: the error string `EAPI:Rate limit reached` does not
match either full code the claim names, yet the caller receives the
rate-limit error rather than an `Api` error. -/
theorem parse_response_exact_match_counterexample :
    parse_response (T := Nat) true "200 OK" ["EAPI:Rate limit reached"] none "" =
      .error (.RateLimitExceeded none) ∧
    ApiError.from_error_array ["EAPI:Rate limit reached"] =
      some ⟨"EAPI", "Rate limit reached"⟩ ∧
    ApiError.full_code ⟨"EAPI", "Rate limit reached"⟩ ≠ "EAPI:Rate limit exceeded" ∧
    ApiError.full_code ⟨"EAPI", "Rate limit reached"⟩ ≠ "EOrder:Rate limit exceeded" := by
  refine ⟨rfl, by decide, by decide, by decide⟩

/-- C4 as amended: the Spot envelope parser returns the first error split at
the first colon, classifying as rate-limit exactly when the code is `EAPI`
or `EOrder` and the message contains `Rate limit`; an empty error array
returns the result when present and `InvalidResponse` otherwise. -/
theorem parse_response_matches_spec {T : Type} (status_is_success : Bool)
    (status_text : String) (error : List String) (result : Option T) (body : String) :
    parse_response status_is_success status_text error result body =
      specParseResponse status_is_success status_text error result body := by
  cases error with
  | nil => rfl
  | cons e rest =>
    simp only [parse_response, specParseResponse, ApiError.from_error_array,
      List.head?_cons, Option.map_some']
    cases splitOnceChar ':' e.data with
    | none => exact if_congr (is_rate_limit_iff _) rfl rfl
    | some p => exact if_congr (is_rate_limit_iff _) rfl rfl

/-! ## Nonce source (`src/auth/nonce.rs`) -/

/-- One step of `IncreasingNonce::next_nonce`: the successful
compare-and-swap stores and returns `max(now_micros, last + 1)`. -/
def next_nonce (last now : Nat) : Nat :=
  max now (last + 1)

/-- The values returned by successive `next_nonce` calls, starting from the
stored value `last` (`AtomicU64::new(0)` initially), given the wall-clock
readings observed by each call. -/
def nonceRun (last : Nat) : List Nat → List Nat
  | [] => []
  | now :: rest =>
    let n := next_nonce last now
    n :: nonceRun n rest

theorem nonceRun_gt (nows : List Nat) :
    ∀ last, ∀ x ∈ nonceRun last nows, last < x := by
  induction nows with
  | nil => intro last x hx; simp [nonceRun] at hx
  | cons now rest ih =>
    intro last x hx
    simp only [nonceRun, List.mem_cons] at hx
    rcases hx with h | h
    · subst h
      exact lt_of_lt_of_le (Nat.lt_succ_self last) (le_max_right now (last + 1))
    · exact lt_trans
        (lt_of_lt_of_le (Nat.lt_succ_self last) (le_max_right now (last + 1)))
        (ih (next_nonce last now) x h)

theorem nonceRun_pairwise (nows : List Nat) :
    ∀ last, List.Pairwise (· < ·) (last :: nonceRun last nows) := by
  induction nows with
  | nil => intro last; simp [nonceRun]
  | cons now rest ih =>
    intro last
    rw [List.pairwise_cons]
    refine ⟨nonceRun_gt (now :: rest) last, ?_⟩
    exact ih (next_nonce last now)

theorem nonceRun_length (nows : List Nat) :
    ∀ last, (nonceRun last nows).length = nows.length := by
  induction nows with
  | nil => intro last; rfl
  | cons now rest ih => intro last; simp [nonceRun, ih]

/-- C7: starting from any stored value, each `next_nonce` call returns
`max(now, last + 1)`, the returned values are strictly increasing however
the clock behaves, and `N` calls return `N` distinct values. -/
theorem nonce_values_strictly_increase (last : Nat) (nows : List Nat) :
    (∀ now rest, nonceRun last (now :: rest) =
      max now (last + 1) :: nonceRun (max now (last + 1)) rest) ∧
    List.Pairwise (· < ·) (nonceRun last nows) ∧
    (nonceRun last nows).length = nows.length ∧
    (nonceRun last nows).toFinset.card = nows.length := by
  have hpw : List.Pairwise (· < ·) (nonceRun last nows) :=
    (nonceRun_pairwise nows last).of_cons
  have hnd : (nonceRun last nows).Nodup := hpw.imp (fun h => Nat.ne_of_lt h)
  exact ⟨fun now rest => rfl, hpw, nonceRun_length nows last,
    by rw [List.toFinset_card_of_nodup hnd, nonceRun_length nows last]⟩

/-! ## TTL cache (`src/rate_limit/ttl_cache.rs`) -/

/-- `Duration`/`Instant` arithmetic is modelled on the rational second
timeline; `Instant::elapsed` saturates at zero. -/
def rustElapsed (ts now : ℚ) : ℚ :=
  if now - ts < 0 then 0 else now - ts

/-- `TtlCache` from `src/rate_limit/ttl_cache.rs`: a map from keys to values
paired with their insertion timestamp, plus the time-to-live. -/
structure TtlCache (K V : Type) where
  cache : List (K × V × ℚ)
  ttl : ℚ

/-- The stored `(value, timestamp)` entry for a key, expiry ignored
(the raw `HashMap::get`). -/
def TtlCache.lookupEntry {K V : Type} [DecidableEq K] (c : TtlCache K V) (key : K) :
    Option (V × ℚ) :=
  (c.cache.find? (fun e => decide (e.1 = key))).map (fun e => e.2)

/-- `TtlCache::insert`: timestamp the entry with the current time, replacing
any previous binding of the key. -/
def TtlCache.insert {K V : Type} [DecidableEq K] (c : TtlCache K V) (key : K)
    (value : V) (now : ℚ) : TtlCache K V :=
  { c with cache := (key, value, now) :: c.cache.filter (fun e => !decide (e.1 = key)) }

/-- `TtlCache::get` lines 70-78: return the value only when the entry exists
and `timestamp.elapsed() < ttl`. -/
def TtlCache.get {K V : Type} [DecidableEq K] (c : TtlCache K V) (key : K)
    (now : ℚ) : Option V :=
  (c.lookupEntry key).bind
    (fun vt => if rustElapsed vt.2 now < c.ttl then some vt.1 else none)

/-- `TtlCache::remove_with_age` lines 135-144: the entry is removed from the
map unconditionally; the `(value, age)` pair is returned only when the entry
had not expired. -/
def TtlCache.remove_with_age {K V : Type} [DecidableEq K] (c : TtlCache K V)
    (key : K) (now : ℚ) : TtlCache K V × Option (V × ℚ) :=
  ({ c with cache := c.cache.filter (fun e => !decide (e.1 = key)) },
   (c.lookupEntry key).bind
     (fun vt =>
       let age := rustElapsed vt.2 now
       if age < c.ttl then some (vt.1, age) else none))

/-- C8 counterexample: with `ttl = 5`, an entry inserted at time 0 and read
at time 5 satisfies the claim's condition `t ≥ T − ttl`, yet `get` returns
`none` (the code's bound is strict: `elapsed < ttl`). -/
theorem ttl_get_boundary_counterexample :
    ((0 : ℚ) ≥ 5 - 5) ∧
    TtlCache.get (TtlCache.insert (⟨[], 5⟩ : TtlCache String Nat) "a" 1 0) "a" 5 =
      none := by
  constructor
  · norm_num
  · norm_num [TtlCache.get, TtlCache.insert, TtlCache.lookupEntry, rustElapsed,
      List.find?]

/-- C8 as amended: for an entry inserted at time `t` and still stored, `get`
at time `T` returns the value exactly when `T − t < ttl` (strictly), i.e.
when `t > T − ttl`; at age exactly `ttl` the entry already reads as absent. -/
theorem ttl_get_iff_age_lt_ttl {K V : Type} [DecidableEq K] (c : TtlCache K V)
    (k : K) (v : V) (t T : ℚ) (hlook : c.lookupEntry k = some (v, t))
    (ht : t ≤ T) :
    c.get k T = some v ↔ T - t < c.ttl := by
  have he : rustElapsed t T = T - t := by
    rw [rustElapsed, if_neg (not_lt.mpr (sub_nonneg.mpr ht))]
  rw [TtlCache.get, hlook, Option.some_bind, he]
  split_ifs with h
  · simp [h]
  · simp [h]

/-- C8 witness: a fresh entry is readable strictly inside its ttl window. -/
theorem ttl_get_iff_age_lt_ttl_witness :
    TtlCache.get (TtlCache.insert (⟨[], 5⟩ : TtlCache String Nat) "a" 7 0) "a" 3 =
      some 7 ↔ (3 : ℚ) - 0 < 5 :=
  ttl_get_iff_age_lt_ttl _ "a" 7 0 3 rfl (by norm_num)

/-! ## Token bucket and trading rate limiter
(`src/rate_limit/client.rs`, `src/rate_limit/trading.rs`) -/

/-- The `as i64` cast of an `f64` value, modelled on exact rationals:
truncation toward zero. -/
def i64trunc (q : ℚ) : Int :=
  if 0 ≤ q.num then ((q.num.toNat / q.den : Nat) : Int)
  else -((((-q.num).toNat / q.den : Nat) : Int))

/-- The token-bucket state shared by `PrivateRateLimiter` and
`TradingRateLimiter`: counter, maximum and decay rate in fixed-point
(scaled by 100), plus the last update instant. -/
structure BucketState where
  counter : Int
  max_counter : Int
  decay_rate : Int
  last_update : ℚ
deriving DecidableEq

/-- `PrivateRateLimiter::update` / `TradingRateLimiter::update_counter`:
`counter := max(0, counter − (elapsed_secs × decay_rate) as i64)` and the
update instant advances to now. -/
def updateCounter (s : BucketState) (now : ℚ) : BucketState :=
  { s with
    counter := max (s.counter - i64trunc (rustElapsed s.last_update now * (s.decay_rate : ℚ))) 0,
    last_update := now }

/-- The charging step shared verbatim by `PrivateRateLimiter::try_acquire`
(cost 100), `TradingRateLimiter::try_place_order` (cost 100) and
`TradingRateLimiter::try_cancel_order` (cost `penalty * 100`): update, then
admit and charge when `counter + cost ≤ max_counter`, otherwise report the
wait `(counter + cost − max_counter) / decay_rate` seconds. -/
def bucketAcquire (s : BucketState) (cost : Int) (now : ℚ) :
    BucketState × Except ℚ Unit :=
  let u := updateCounter s now
  if u.counter + cost ≤ u.max_counter then
    ({ u with counter := u.counter + cost }, .ok ())
  else
    (u, .error (((u.counter + cost - u.max_counter : Int) : ℚ) / (u.decay_rate : ℚ)))

/-- `PrivateRateLimiter::try_acquire` from `src/rate_limit/client.rs` lines
290-304: fixed cost of 100 scaled units (1 point). -/
def privateTryAcquire (s : BucketState) (now : ℚ) : BucketState × Except ℚ Unit :=
  bucketAcquire s 100 now

/-- `OrderTrackingInfo` from `src/rate_limit/trading.rs`. -/
structure OrderTrackingInfo where
  created_at : ℚ
  pair : String
  client_order_id : Option String
deriving DecidableEq

/-- `TradingRateLimiter` state: the order aging table (5-minute ttl) plus
the token bucket. -/
structure TradingState where
  orders : TtlCache String OrderTrackingInfo
  bucket : BucketState

/-- `TradingRateLimiter::new`: empty aging table with 300-second ttl,
counter 0, `max_counter * 100` and `(decay_rate_per_sec * 100.0) as i64`. -/
def TradingRateLimiter.new (max_counter : Nat) (decay_rate_per_sec : ℚ)
    (now : ℚ) : TradingState :=
  { orders := ⟨[], 300⟩,
    bucket :=
      { counter := 0, max_counter := (max_counter : Int) * 100,
        decay_rate := i64trunc (decay_rate_per_sec * 100), last_update := now } }

/-- `limits::trading` penalty constants from `src/rate_limit/mod.rs`. -/
def CANCEL_PENALTY_UNDER_5S : Nat := 8

def CANCEL_PENALTY_5_TO_10S : Nat := 6

def CANCEL_PENALTY_10_TO_15S : Nat := 5

def CANCEL_PENALTY_15_TO_45S : Nat := 4

def CANCEL_PENALTY_45_TO_90S : Nat := 2

def CANCEL_PENALTY_OVER_90S : Nat := 0

/-- `Duration::as_secs` of a nonnegative rational duration: whole seconds,
truncated. -/
def durationAsSecs (age : ℚ) : Nat :=
  (i64trunc age).toNat

/-- `TradingRateLimiter::cancel_penalty` from `src/rate_limit/trading.rs`
lines 135-151: bucket the whole-second age. -/
def cancel_penalty (age : ℚ) : Nat :=
  let secs := durationAsSecs age
  if secs < 5 then CANCEL_PENALTY_UNDER_5S
  else if secs < 10 then CANCEL_PENALTY_5_TO_10S
  else if secs < 15 then CANCEL_PENALTY_10_TO_15S
  else if secs < 45 then CANCEL_PENALTY_15_TO_45S
  else if secs < 90 then CANCEL_PENALTY_45_TO_90S
  else CANCEL_PENALTY_OVER_90S

/-- `TradingRateLimiter::try_place_order` lines 107-123: charge 1 point
(100 scaled); insert the tracking record only on success. -/
def try_place_order (ts : TradingState) (order_id : String)
    (info : OrderTrackingInfo) (now : ℚ) : TradingState × Except ℚ Unit :=
  match bucketAcquire ts.bucket 100 now with
  | (b, .ok _) => ({ orders := ts.orders.insert order_id info now, bucket := b }, .ok ())
  | (b, .error w) => ({ ts with bucket := b }, .error w)

/-- `TradingRateLimiter::try_cancel_order` lines 157-179: remove the order
(with age) from the table, derive the penalty (worst case 8 when the id is
unknown or expired), then charge `penalty * 100`. -/
def try_cancel_order (ts : TradingState) (order_id : String) (now : ℚ) :
    TradingState × Except ℚ Nat :=
  let rem := ts.orders.remove_with_age order_id now
  let penalty : Nat :=
    match rem.2 with
    | some va => cancel_penalty va.2
    | none => CANCEL_PENALTY_UNDER_5S
  match bucketAcquire ts.bucket ((penalty : Int) * 100) now with
  | (b, .ok _) => ({ orders := rem.1, bucket := b }, .ok penalty)
  | (b, .error w) => ({ orders := rem.1, bucket := b }, .error w)

/-- The token-bucket operation as the specification words it (§4.F): decay
first, then admit and charge exactly when the decayed counter plus the cost
fits, otherwise refuse with the wait `(counter + cost − max_counter) / decay`. -/
def specTokenBucket (s : BucketState) (cost : Int) (now : ℚ) :
    BucketState × Except ℚ Unit :=
  let decayed := max (s.counter - i64trunc (rustElapsed s.last_update now * (s.decay_rate : ℚ))) 0
  if decayed + cost ≤ s.max_counter then
    ({ counter := decayed + cost, max_counter := s.max_counter,
       decay_rate := s.decay_rate, last_update := now }, .ok ())
  else
    ({ counter := decayed, max_counter := s.max_counter,
       decay_rate := s.decay_rate, last_update := now },
     .error (((decayed + cost - s.max_counter : Int) : ℚ) / (s.decay_rate : ℚ)))

theorem i64trunc_intCast (n : Int) : i64trunc ((n : ℚ)) = n := by
  rw [i64trunc]
  rcases le_or_lt 0 n with h | h
  · rw [if_pos (by rwa [Rat.num_intCast])]
    simp [Rat.den_intCast, Int.toNat_of_nonneg h]
  · rw [if_neg (by rw [Rat.num_intCast]; exact not_le.mpr h)]
    simp [Rat.den_intCast, Int.toNat_of_nonneg (neg_nonneg.mpr h.le)]

theorem i64trunc_eq_floor (q : ℚ) (h : 0 ≤ q) : i64trunc q = ⌊q⌋ := by
  rw [i64trunc, if_pos (Rat.num_nonneg.mpr h), Rat.floor_def]
  rw [Int.ofNat_ediv, Int.toNat_of_nonneg (Rat.num_nonneg.mpr h)]

theorem i64trunc_nonneg (q : ℚ) (h : 0 ≤ q) : 0 ≤ i64trunc q := by
  rw [i64trunc, if_pos (Rat.num_nonneg.mpr h)]
  exact Int.natCast_nonneg _

theorem rustElapsed_nonneg (ts now : ℚ) : 0 ≤ rustElapsed ts now := by
  rw [rustElapsed]
  split_ifs with h
  · exact le_refl 0
  · exact le_of_not_lt h

theorem try_place_projections (ts : TradingState) (id : String)
    (info : OrderTrackingInfo) (now : ℚ) :
    (try_place_order ts id info now).1.bucket = (bucketAcquire ts.bucket 100 now).1 ∧
    (try_place_order ts id info now).2 = (bucketAcquire ts.bucket 100 now).2 := by
  rcases h : bucketAcquire ts.bucket 100 now with ⟨b, r⟩
  unfold try_place_order
  rw [h]
  cases r <;> simp

/-- C5: the token-bucket operations (`PrivateRateLimiter::try_acquire` and
the trading limiter's order-placement admission) first decay the counter,
then admit and charge exactly when the decayed counter plus the cost fits
under the maximum, otherwise refuse with wait
`(counter + cost − max_counter) / decay_rate` in the ×100 fixed-point
representation. -/
theorem token_bucket_matches_spec (s : BucketState) (cost : Int) (now : ℚ)
    (ts : TradingState) (id : String) (info : OrderTrackingInfo) :
    bucketAcquire s cost now = specTokenBucket s cost now ∧
    privateTryAcquire s now = specTokenBucket s 100 now ∧
    (try_place_order ts id info now).1.bucket = (specTokenBucket ts.bucket 100 now).1 ∧
    (try_place_order ts id info now).2 = (specTokenBucket ts.bucket 100 now).2 := by
  have hb : ∀ (t : BucketState) (c : Int), bucketAcquire t c now = specTokenBucket t c now :=
    fun t c => rfl
  exact ⟨hb s cost, hb s 100,
    by rw [(try_place_projections ts id info now).1, hb],
    by rw [(try_place_projections ts id info now).2, hb]⟩

/-- The invariant of §4.F: the counter stays between 0 and the maximum. -/
def BucketInv (s : BucketState) : Prop :=
  0 ≤ s.counter ∧ s.counter ≤ s.max_counter

/-- The operations a caller can drive the bucket through: a bare decay
update, or a cost-weighted admission attempt (which charges only when
admitted). -/
inductive BucketEvent where
  | update (now : ℚ)
  | acquire (cost : Nat) (now : ℚ)

/-- State transition of the bucket for one event. -/
def bucketStep (s : BucketState) : BucketEvent → BucketState
  | .update now => updateCounter s now
  | .acquire cost now => (bucketAcquire s (cost : Int) now).1

theorem updateCounter_inv (s : BucketState) (now : ℚ) (h : BucketInv s)
    (hd : 0 ≤ s.decay_rate) : BucketInv (updateCounter s now) := by
  obtain ⟨h0, h1⟩ := h
  have hdec : 0 ≤ i64trunc (rustElapsed s.last_update now * (s.decay_rate : ℚ)) :=
    i64trunc_nonneg _ (mul_nonneg (rustElapsed_nonneg _ _) (by exact_mod_cast hd))
  constructor
  · exact le_max_right _ _
  · exact max_le (le_trans (sub_le_self _ hdec) h1) (le_trans h0 h1)

theorem bucketAcquire_inv (s : BucketState) (cost : Int) (now : ℚ)
    (h : BucketInv s) (hd : 0 ≤ s.decay_rate) (hc : 0 ≤ cost) :
    BucketInv (bucketAcquire s cost now).1 := by
  have hu := updateCounter_inv s now h hd
  simp only [bucketAcquire]
  split_ifs with hle
  · exact ⟨add_nonneg hu.1 hc, hle⟩
  · exact hu

theorem bucketStep_preserves (s : BucketState) (e : BucketEvent) (h : BucketInv s)
    (hd : 0 ≤ s.decay_rate) :
    BucketInv (bucketStep s e) ∧ (bucketStep s e).decay_rate = s.decay_rate := by
  cases e with
  | update now => exact ⟨updateCounter_inv s now h hd, rfl⟩
  | acquire cost now =>
    refine ⟨bucketAcquire_inv s cost now h hd (Int.natCast_nonneg cost), ?_⟩
    simp only [bucketStep, bucketAcquire]
    split_ifs <;> rfl

/-- C6 counterexample: a bucket state with `0 ≤ counter ≤ max_counter` but a
negative decay rate — reachable through `TradingRateLimiter::new(1, -5.0)` —
overshoots `max_counter` after a single decay update, so the claim quantified
over all states with `0 ≤ counter ≤ max_counter` fails. -/
theorem bucket_invariant_counterexample :
    (TradingRateLimiter.new 1 (-5) 0).bucket =
      { counter := 0, max_counter := 100, decay_rate := -500, last_update := 0 } ∧
    BucketInv { counter := 0, max_counter := 100, decay_rate := -500, last_update := 0 } ∧
    ¬ BucketInv (bucketStep
      { counter := 0, max_counter := 100, decay_rate := -500, last_update := 0 }
      (.update 1)) := by
  refine ⟨?_, ⟨by norm_num, by norm_num⟩, ?_⟩
  · have h5 : ((-5 : ℚ)) * 100 = ((-500 : ℤ) : ℚ) := by norm_num
    simp only [TradingRateLimiter.new, BucketState.mk.injEq, h5, i64trunc_intCast]
    norm_num
  · have e1 : rustElapsed (0 : ℚ) 1 = 1 := by rw [rustElapsed]; norm_num
    have hc : (bucketStep
        { counter := 0, max_counter := 100, decay_rate := -500, last_update := 0 }
        (.update 1)).counter = 500 := by
      show (updateCounter _ 1).counter = 500
      simp only [updateCounter]
      rw [e1, one_mul, i64trunc_intCast]
      rw [max_eq_left (by norm_num : (0 : ℤ) - -500 ≥ 0)]
      norm_num
    intro hInv
    have h2 := hInv.2
    rw [hc] at h2
    have hm : (bucketStep
        { counter := 0, max_counter := 100, decay_rate := -500, last_update := 0 }
        (.update 1)).max_counter = 100 := rfl
    rw [hm] at h2
    norm_num at h2

/-- C6 as amended: for every bucket state with `0 ≤ counter ≤ max_counter`
and a nonnegative decay rate (all tier configurations), every sequence of
decay updates and admission attempts keeps `0 ≤ counter ≤ max_counter`. -/
theorem bucket_counter_invariant (s : BucketState) (h : BucketInv s)
    (hd : 0 ≤ s.decay_rate) (es : List BucketEvent) :
    BucketInv (es.foldl bucketStep s) := by
  induction es generalizing s with
  | nil => exact h
  | cons e rest ih =>
    obtain ⟨h1, h2⟩ := bucketStep_preserves s e h hd
    exact ih (bucketStep s e) h1 (h2 ▸ hd)

/-- C6 witness: a concrete Pro-tier-like bucket run through an admission, a
decay pause, and a further admission keeps its invariant. -/
theorem bucket_counter_invariant_witness :
    BucketInv ([BucketEvent.acquire 1 0, .update 5, .acquire 8 5].foldl bucketStep
      { counter := 0, max_counter := 2000, decay_rate := 100, last_update := 0 }) :=
  bucket_counter_invariant _ ⟨by norm_num, by norm_num⟩ (by norm_num) _

/-- The cancellation penalty schedule as the specification words it (§4.G):
a step function of the real age, lower bounds inclusive, upper exclusive. -/
def specPenalty (age : ℚ) : Nat :=
  if age < 5 then 8
  else if age < 10 then 6
  else if age < 15 then 5
  else if age < 45 then 4
  else if age < 90 then 2
  else 0

/-- C3: for every nonnegative age, `cancel_penalty` is exactly the claimed
step function of the real-valued age, and `try_cancel_order` on an id absent
from the aging table charges the worst-case penalty of 8 points. -/
theorem cancel_penalty_schedule (age : ℚ) (h : 0 ≤ age) (ts : TradingState)
    (id : String) (now : ℚ) (hid : ts.orders.lookupEntry id = none) :
    cancel_penalty age = specPenalty age ∧
    try_cancel_order ts id now =
      ({ orders := (ts.orders.remove_with_age id now).1,
         bucket := (bucketAcquire ts.bucket (((8 : ℕ) : ℤ) * 100) now).1 },
       Except.map (fun _ => (8 : ℕ))
         (bucketAcquire ts.bucket (((8 : ℕ) : ℤ) * 100) now).2) := by
  constructor
  · have hf : i64trunc age = ⌊age⌋ := i64trunc_eq_floor age h
    have hge : 0 ≤ ⌊age⌋ := Int.floor_nonneg.mpr h
    have k5 : durationAsSecs age < 5 ↔ age < 5 := by
      rw [durationAsSecs, hf, Int.toNat_lt hge, Int.floor_lt]; norm_num
    have k10 : durationAsSecs age < 10 ↔ age < 10 := by
      rw [durationAsSecs, hf, Int.toNat_lt hge, Int.floor_lt]; norm_num
    have k15 : durationAsSecs age < 15 ↔ age < 15 := by
      rw [durationAsSecs, hf, Int.toNat_lt hge, Int.floor_lt]; norm_num
    have k45 : durationAsSecs age < 45 ↔ age < 45 := by
      rw [durationAsSecs, hf, Int.toNat_lt hge, Int.floor_lt]; norm_num
    have k90 : durationAsSecs age < 90 ↔ age < 90 := by
      rw [durationAsSecs, hf, Int.toNat_lt hge, Int.floor_lt]; norm_num
    simp only [cancel_penalty, specPenalty, CANCEL_PENALTY_UNDER_5S,
      CANCEL_PENALTY_5_TO_10S, CANCEL_PENALTY_10_TO_15S, CANCEL_PENALTY_15_TO_45S,
      CANCEL_PENALTY_45_TO_90S, CANCEL_PENALTY_OVER_90S]
    exact if_congr k5 rfl (if_congr k10 rfl (if_congr k15 rfl
      (if_congr k45 rfl (if_congr k90 rfl rfl))))
  · have hrem : (ts.orders.remove_with_age id now).2 = none := by
      simp only [TtlCache.remove_with_age, hid, Option.none_bind]
    simp only [try_cancel_order, hrem, CANCEL_PENALTY_UNDER_5S]
    rcases hb : bucketAcquire ts.bucket (((8 : ℕ) : ℤ) * 100) now with ⟨b, r⟩
    cases r <;> simp [Except.map]

/-- C3 witness: an age of 3.5 seconds and a cancel against an empty table. -/
theorem cancel_penalty_schedule_witness :
    cancel_penalty (7 / 2) = specPenalty (7 / 2) ∧
    try_cancel_order ⟨⟨[], 300⟩, ⟨0, 2000, 100, 0⟩⟩ "OX" 0 =
      ({ orders := ((⟨[], 300⟩ : TtlCache String OrderTrackingInfo).remove_with_age
           "OX" 0).1,
         bucket := (bucketAcquire ⟨0, 2000, 100, 0⟩ (((8 : ℕ) : ℤ) * 100) 0).1 },
       Except.map (fun _ => (8 : ℕ))
         (bucketAcquire ⟨0, 2000, 100, 0⟩ (((8 : ℕ) : ℤ) * 100) 0).2) :=
  cancel_penalty_schedule (7 / 2) (by norm_num) ⟨⟨[], 300⟩, ⟨0, 2000, 100, 0⟩⟩
    "OX" 0 rfl

theorem find?_filter_self {α : Type} (p : α → Bool) (l : List α) :
    (l.filter (fun a => !p a)).find? p = none := by
  induction l with
  | nil => rfl
  | cons a t ih =>
    by_cases h : p a
    · simp [List.filter_cons, h, ih]
    · simp [List.filter_cons, List.find?_cons, h, ih]

theorem lookupEntry_erase {K V : Type} [DecidableEq K] (c : TtlCache K V) (key : K) :
    TtlCache.lookupEntry ⟨c.cache.filter (fun e => !decide (e.1 = key)), c.ttl⟩ key =
      none := by
  rw [TtlCache.lookupEntry]
  rw [find?_filter_self (fun e => decide (e.1 = key)) c.cache]
  rfl

theorem try_cancel_orders_eq (ts : TradingState) (id : String) (now : ℚ) :
    (try_cancel_order ts id now).1.orders =
      ⟨ts.orders.cache.filter (fun e => !decide (e.1 = id)), ts.orders.ttl⟩ := by
  simp only [try_cancel_order]
  split <;> rfl

/-- C10: even when `try_cancel_order` is refused by the rate limit, the order
record has already been consumed from the aging table, so a retry for the
same id is treated as unknown and charged the worst-case penalty 8 rather
than its age-based penalty. -/
theorem cancel_refusal_drops_order (ts : TradingState) (id : String)
    (now now2 : ℚ) (v : OrderTrackingInfo) (t : ℚ)
    (hlook : ts.orders.lookupEntry id = some (v, t))
    (hfresh : rustElapsed t now < ts.orders.ttl) (w : ℚ)
    (hrefuse : (try_cancel_order ts id now).2 = .error w) :
    (try_cancel_order ts id now).1.orders.lookupEntry id = none ∧
    ∀ p, (try_cancel_order (try_cancel_order ts id now).1 id now2).2 = .ok p →
      p = 8 := by
  have hnone : (try_cancel_order ts id now).1.orders.lookupEntry id = none := by
    rw [try_cancel_orders_eq]
    exact lookupEntry_erase ts.orders id
  refine ⟨hnone, ?_⟩
  intro p hp
  set s1 := (try_cancel_order ts id now).1 with hs1
  have hrem2 : (s1.orders.remove_with_age id now2).2 = none := by
    simp only [TtlCache.remove_with_age, hnone, Option.none_bind]
  simp only [try_cancel_order, hrem2, CANCEL_PENALTY_UNDER_5S] at hp
  rcases hb : bucketAcquire s1.bucket (((8 : ℕ) : ℤ) * 100) now2 with ⟨b, r⟩
  rw [hb] at hp
  cases r with
  | ok u => simpa using hp.symm
  | error w2 => simp at hp

/-- C10 witness: a tracked fresh order whose cancel is refused (bucket at
100/800 against a cost of 800); the retry finds the id unknown. -/
theorem cancel_refusal_drops_order_witness :
    (try_cancel_order ⟨⟨[("O1", ⟨0, "BTC", none⟩, 0)], 300⟩, ⟨100, 800, 100, 0⟩⟩
      "O1" 0).1.orders.lookupEntry "O1" = none ∧
    ∀ p, (try_cancel_order
      (try_cancel_order ⟨⟨[("O1", ⟨0, "BTC", none⟩, 0)], 300⟩, ⟨100, 800, 100, 0⟩⟩
        "O1" 0).1 "O1" 1).2 = .ok p → p = 8 :=
  cancel_refusal_drops_order
    ⟨⟨[("O1", ⟨0, "BTC", none⟩, 0)], 300⟩, ⟨100, 800, 100, 0⟩⟩ "O1" 0 1
    ⟨0, "BTC", none⟩ 0 rfl (by norm_num [rustElapsed]) 1
    (by norm_num [try_cancel_order, TtlCache.remove_with_age, TtlCache.lookupEntry,
      List.find?, cancel_penalty, durationAsSecs, i64trunc, rustElapsed,
      bucketAcquire, updateCounter, CANCEL_PENALTY_UNDER_5S])

/-! ## Pagination envelope codec (`src/types/last_and_data.rs`) -/

/-- JSON values, as far as the pagination envelope needs them. -/
inductive JsonValue where
  | str (s : String)
  | num (n : Int)
  | arr (items : List JsonValue)
  | null

/-- `LastAndData` from `src/types/last_and_data.rs`: the pagination cursor
and the dynamically keyed payload (held as raw JSON). -/
structure LastAndData where
  last : String
  data : JsonValue

/-- The `visit_map` loop of the custom `Deserialize` impl (lines 82-111):
scan entries in order; a `"last"` key accepts a string or a number
(normalized with `to_string`), any other key becomes the data; both must be
present at the end. -/
def lastAndDataFold : List (String × JsonValue) → Option String → Option JsonValue →
    Except String LastAndData
  | [], lastAcc, dataAcc =>
    match lastAcc, dataAcc with
    | some l, some d => .ok ⟨l, d⟩
    | none, _ => .error "missing field last"
    | some _, none => .error "missing data field"
  | (k, v) :: rest, lastAcc, dataAcc =>
    if k = "last" then
      match v with
      | .str s => lastAndDataFold rest (some s) dataAcc
      | .num n => lastAndDataFold rest (some (toString n)) dataAcc
      | _ => .error "expected string or number for last"
    else lastAndDataFold rest lastAcc (some v)

/-- Deserialization entry point for `LastAndData`. -/
def deserializeLastAndData (entries : List (String × JsonValue)) :
    Except String LastAndData :=
  lastAndDataFold entries none none

/-- The `Serialize` impl (lines 119-131): a two-entry map with the data under
the fixed key `"data"` and the cursor under `"last"`. -/
def serializeLastAndData (x : LastAndData) : List (String × JsonValue) :=
  [("data", x.data), ("last", .str x.last)]

/-- C9: serializing a `LastAndData` and deserializing the result restores
both fields, and a two-entry input map whose `"last"` entry is a JSON number
deserializes successfully (in either entry order) with the cursor normalized
to the number's decimal rendering and the data taken from the other key. -/
theorem last_and_data_roundtrip (x : LastAndData) (k : String) (v : JsonValue)
    (n : Int) (hk : k ≠ "last") :
    deserializeLastAndData (serializeLastAndData x) = .ok x ∧
    deserializeLastAndData [(k, v), ("last", .num n)] = .ok ⟨toString n, v⟩ ∧
    deserializeLastAndData [("last", .num n), (k, v)] = .ok ⟨toString n, v⟩ := by
  refine ⟨rfl, ?_, ?_⟩
  · simp [deserializeLastAndData, lastAndDataFold, hk]
  · simp [deserializeLastAndData, lastAndDataFold, hk]

/-- C9 witness: the spec's own example `{"XBTUSD": [1,2,3], "last": 12345}`. -/
theorem last_and_data_roundtrip_witness :
    deserializeLastAndData (serializeLastAndData ⟨"1", .null⟩) = .ok ⟨"1", .null⟩ ∧
    deserializeLastAndData
      [("XBTUSD", .arr [.num 1, .num 2, .num 3]), ("last", .num 12345)] =
      .ok ⟨toString (12345 : ℤ), .arr [.num 1, .num 2, .num 3]⟩ ∧
    deserializeLastAndData
      [("last", .num 12345), ("XBTUSD", .arr [.num 1, .num 2, .num 3])] =
      .ok ⟨toString (12345 : ℤ), .arr [.num 1, .num 2, .num 3]⟩ :=
  last_and_data_roundtrip ⟨"1", .null⟩ "XBTUSD" (.arr [.num 1, .num 2, .num 3])
    12345 (by decide)
